import Mathlib

/-!
Shallow embedding of `src/storage_manifests.py` from the
vsphere-cloud-provider-operator repository.

Python values that occur in the charm's configuration dictionaries and in
Kubernetes resource documents are modelled by the inductive type `JVal`
(strings, integers, `None`, dicts, lists).  Python dicts are modelled as
insertion-ordered association lists `List (String × JVal)`; `dget`, `dset`
and `ddel` model `d.get(k)`, `d[k] = v` (update in place, append when new)
and `del d[k]`.

The file embeds, from the source:
  * `VsphereStorageManifests.config`  (lines 145-171),
  * `VsphereStorageManifests.hash`    (lines 173-175, via `json.dumps`
    with `sort_keys=True` and MD5),
  * `VsphereStorageManifests.evaluate` (lines 177-183),
  * `CreateSecret.__call__`            (lines 58-85, via `base64.b64encode`),
  * `UpdateDeployment.__call__`        (lines 30-52).
-/

/-- A Python value as it occurs in this charm's config dictionaries and
Kubernetes resource documents: a string, an int, `None`, a dict
(insertion-ordered association list) or a list. -/
inductive JVal where
  | str : String → JVal
  | int : Int → JVal
  | null : JVal
  | obj : List (String × JVal) → JVal
  | arr : List JVal → JVal

/-- A Python dict with string keys: insertion-ordered association list. -/
abbrev Dict := List (String × JVal)

/-- `d.get(k)`: the value stored at the first (only) occurrence of `k`,
or `None` (here: `none`) when the key is absent. -/
def dget : Dict → String → Option JVal
  | [], _ => none
  | p :: ps, k => if p.1 = k then some p.2 else dget ps k

/-- `d[k] = v`: replace the value in place when the key is present
(keeping its position, as Python dicts do), otherwise append the new
pair at the end. -/
def dset : Dict → String → JVal → Dict
  | [], k, v => [(k, v)]
  | p :: ps, k, v => if p.1 = k then (k, v) :: ps else p :: dset ps k v

/-- `del d[k]` / `d.pop(k)`: remove the (unique) pair with key `k`. -/
def ddel : Dict → String → Dict
  | [], _ => []
  | p :: ps, k => if p.1 = k then ps else p :: ddel ps k

@[simp] theorem dget_nil (k : String) : dget [] k = none := rfl

@[simp] theorem dget_cons (p : String × JVal) (ps : Dict) (k : String) :
    dget (p :: ps) k = if p.1 = k then some p.2 else dget ps k := rfl

theorem dget_dset_self (d : Dict) (k : String) (v : JVal) :
    dget (dset d k v) k = some v := by
  induction d with
  | nil => simp [dset]
  | cons p ps ih =>
    by_cases h : p.1 = k <;> simp [dset, h, ih]

theorem dget_dset_ne (d : Dict) (k k' : String) (v : JVal) (hk : k ≠ k') :
    dget (dset d k v) k' = dget d k' := by
  induction d with
  | nil => simp [dset, hk]
  | cons p ps ih =>
    simp only [dset]
    by_cases h : p.1 = k
    · rw [if_pos h]
      have h2 : ¬ (p.1 = k') := by rw [h]; exact hk
      simp [hk, h2]
    · rw [if_neg h]
      by_cases h' : p.1 = k' <;> simp [h', ih]

theorem dget_ddel_self (d : Dict) (k : String)
    (hd : (d.map Prod.fst).Nodup) : dget (ddel d k) k = none := by
  induction d with
  | nil => simp [ddel]
  | cons p ps ih =>
    simp only [List.map_cons, List.nodup_cons] at hd
    by_cases h : p.1 = k
    · simp only [ddel, if_pos h]
      -- `k = p.1` never occurs as a key of `ps`
      have : ∀ q ∈ ps, ¬ q.1 = k := by
        intro q hq hqk
        exact hd.1 (h ▸ hqk ▸ List.mem_map_of_mem Prod.fst hq)
      clear ih hd
      induction ps with
      | nil => simp
      | cons q qs ihq =>
        simp only [dget_cons, this q (List.mem_cons_self q qs), if_false]
        exact ihq (fun r hr => this r (List.mem_cons_of_mem q hr))
    · simp [ddel, h, ih hd.2]

theorem dget_ddel_ne (d : Dict) (k k' : String) (hk : k ≠ k') :
    dget (ddel d k) k' = dget d k' := by
  induction d with
  | nil => simp [ddel]
  | cons p ps ih =>
    simp only [ddel]
    by_cases h : p.1 = k
    · rw [if_pos h]
      have h2 : ¬ (p.1 = k') := by rw [h]; exact hk
      simp [h2]
    · rw [if_neg h]
      simp [ih]

/-- The truthiness of a Python value (`bool(v)`), as used by
`if not value` / `if not replicas` in the source. -/
def truthy : JVal → Bool
  | .str s => !s.isEmpty
  | .int n => n != 0
  | .null => false
  | .obj xs => !xs.isEmpty
  | .arr xs => !xs.isEmpty

/-- Truthiness of the result of a `d.get(k)` call: an absent key reads as
`None`, which is falsy. -/
def truthyOpt : Option JVal → Bool
  | none => false
  | some v => truthy v

/-! ### The layered config resolver (`VsphereStorageManifests.config`) -/

/-- The peer integration data source (`self.integrator`): readiness flag and
the four vSphere connection values it exposes. -/
structure Integrator where
  is_ready : Bool
  vsphere_ip : JVal
  user : JVal
  password : JVal
  datacenter : JVal

/-- The kube-control relation (`self.kube_control`): readiness flag and the
image registry location. -/
structure KubeControl where
  is_ready : Bool
  registry_location : JVal

/-- The control-plane relation (`self.control_plane`), when present: the
related application's name and the number of currently related units. -/
structure ControlPlane where
  app_name : String
  unit_count : Nat

/-- Merge steps of `VsphereStorageManifests.config` before post-processing:
integrator layer, kube-control layer, control-plane layer, then the static
charm-config overlay (`config.update(**self.charm_config.available_data)`). -/
def mergedConfig (integrator : Integrator) (kube_control : KubeControl)
    (control_plane : Option ControlPlane) (charm_data : Dict) : Dict :=
  let c : Dict :=
    if integrator.is_ready then
      [("server", integrator.vsphere_ip), ("username", integrator.user),
       ("password", integrator.password), ("datacenter", integrator.datacenter)]
    else []
  let c := if kube_control.is_ready then dset c "image-registry" kube_control.registry_location else c
  let c :=
    match control_plane with
    | some cp =>
        dset (dset c "control-node-selector"
          (JVal.obj [("juju-application", JVal.str cp.app_name)]))
          "replicas" (JVal.int cp.unit_count)
    | none => c
  charm_data.foldl (fun acc p => dset acc p.1 p.2) c

/-- The drop pass of `VsphereStorageManifests.config`: delete every key whose
value is the empty string or `None`
(`if value == "" or value is None: del config[key]`). -/
def isDropped : JVal → Bool
  | .str s => s.isEmpty
  | .null => true
  | _ => false

/-- Apply the drop pass to a whole dict (iterating over a copy, as the
source's `for key, value in dict(**config).items()` does, equals a filter
that keeps insertion order). -/
def dropEmpty (d : Dict) : Dict :=
  d.filter (fun p => !isDropped p.2)

/-- The final post-processing step
`config["release"] = config.pop("storage-release", None)`:
remove `storage-release` and assign its former value (default `None`)
to `release`. -/
def renameRelease (d : Dict) : Dict :=
  dset (ddel d "storage-release") "release" ((dget d "storage-release").getD JVal.null)

/-- `VsphereStorageManifests.config` (source lines 145-171): layered merge,
then the drop pass, then the `storage-release` → `release` rename. -/
def VsphereStorageManifests.config (integrator : Integrator) (kube_control : KubeControl)
    (control_plane : Option ControlPlane) (charm_data : Dict) : Dict :=
  renameRelease (dropEmpty (mergedConfig integrator kube_control control_plane charm_data))

/-! ### The readiness evaluator (`VsphereStorageManifests.evaluate`) -/

/-- The fixed ordered list of required keys checked by
`VsphereStorageManifests.evaluate`. -/
def requiredProps : List String :=
  ["server", "username", "password", "datacenter", "control-node-selector"]

/-- The waiting message produced for a missing/falsy required key. -/
def waitingMsg (prop : String) : String :=
  "Storage manifests waiting for definition of " ++ prop

/-- The `for prop in props` loop of `evaluate`: return the message for the
first key whose configured value is missing or falsy, `none` when the loop
completes. -/
def evalLoop : List String → Dict → Option String
  | [], _ => none
  | prop :: props, c =>
    if truthyOpt (dget c prop) then evalLoop props c
    else some (waitingMsg prop)

/-- `VsphereStorageManifests.evaluate` (source lines 177-183) applied to an
already-resolved effective config. -/
def VsphereStorageManifests.evaluate (c : Dict) : Option String :=
  evalLoop requiredProps c

/-! ### Key-uniqueness invariant of the modelled dicts -/

/-- The keys of a dict. -/
def dkeys (d : Dict) : List String := d.map Prod.fst


theorem mem_dkeys_dset (d : Dict) (k : String) (v : JVal) (k' : String) :
    k' ∈ dkeys (dset d k v) ↔ k' ∈ dkeys d ∨ k' = k := by
  induction d with
  | nil => simp [dset, dkeys]
  | cons p ps ih =>
    simp only [dset]
    by_cases h : p.1 = k
    · rw [if_pos h]
      simp only [dkeys, List.map_cons, List.mem_cons]
      rw [h]
      tauto
    · rw [if_neg h]
      simp only [dkeys, List.map_cons, List.mem_cons] at *
      rw [ih]
      tauto

theorem nodup_dkeys_dset (d : Dict) (k : String) (v : JVal)
    (hd : (dkeys d).Nodup) : (dkeys (dset d k v)).Nodup := by
  induction d with
  | nil => simp [dset, dkeys]
  | cons p ps ih =>
    simp only [dkeys, List.map_cons, List.nodup_cons] at hd
    simp only [dset]
    by_cases h : p.1 = k
    · rw [if_pos h]
      simp only [dkeys, List.map_cons, List.nodup_cons]
      exact ⟨h ▸ hd.1, hd.2⟩
    · rw [if_neg h]
      simp only [dkeys, List.map_cons, List.nodup_cons]
      refine ⟨?_, ih hd.2⟩
      intro hmem
      rcases (mem_dkeys_dset ps k v p.1).mp hmem with hmem | hmem
      · exact hd.1 hmem
      · exact h hmem

theorem ddel_sublist (d : Dict) (k : String) : List.Sublist (ddel d k) d := by
  induction d with
  | nil => simp [ddel]
  | cons q qs ihq =>
    simp only [ddel]
    by_cases hq : q.1 = k
    · rw [if_pos hq]; exact List.sublist_cons_self q qs
    · rw [if_neg hq]; exact List.Sublist.cons₂ q ihq

theorem nodup_dkeys_ddel (d : Dict) (k : String)
    (hd : (dkeys d).Nodup) : (dkeys (ddel d k)).Nodup :=
  ((ddel_sublist d k).map Prod.fst).nodup hd

theorem nodup_dkeys_dropEmpty (d : Dict) (hd : (dkeys d).Nodup) :
    (dkeys (dropEmpty d)).Nodup :=
  ((List.filter_sublist d).map Prod.fst).nodup hd

theorem nodup_dkeys_foldl_dset (charm : Dict) :
    ∀ c : Dict, (dkeys c).Nodup →
      (dkeys (charm.foldl (fun acc p => dset acc p.1 p.2) c)).Nodup := by
  induction charm with
  | nil => intro c hc; simpa using hc
  | cons p ps ih =>
    intro c hc
    simpa using ih (dset c p.1 p.2) (nodup_dkeys_dset c p.1 p.2 hc)

theorem nodup_dkeys_mergedConfig (integrator : Integrator) (kube_control : KubeControl)
    (control_plane : Option ControlPlane) (charm_data : Dict) :
    (dkeys (mergedConfig integrator kube_control control_plane charm_data)).Nodup := by
  unfold mergedConfig
  apply nodup_dkeys_foldl_dset
  have h0 : (dkeys (if integrator.is_ready then
      [("server", integrator.vsphere_ip), ("username", integrator.user),
       ("password", integrator.password), ("datacenter", integrator.datacenter)]
      else ([] : Dict))).Nodup := by
    by_cases h : integrator.is_ready <;> simp [h, dkeys]
  have h1 : ∀ d : Dict, (dkeys d).Nodup →
      (dkeys (if kube_control.is_ready then
        dset d "image-registry" kube_control.registry_location else d)).Nodup := by
    intro d hd
    by_cases h : kube_control.is_ready
    · simpa [h] using nodup_dkeys_dset d "image-registry" kube_control.registry_location hd
    · simpa [h] using hd
  cases control_plane with
  | none => exact h1 _ h0
  | some cp => exact nodup_dkeys_dset _ _ _ (nodup_dkeys_dset _ _ _ (h1 _ h0))

/-! ### Reading through the merge/drop stages -/

theorem mem_of_dget (d : Dict) (k : String) (v : JVal) (h : dget d k = some v) :
    (k, v) ∈ d := by
  induction d with
  | nil => simp at h
  | cons p ps ih =>
    by_cases hp : p.1 = k
    · simp only [dget_cons, if_pos hp, Option.some.injEq] at h
      obtain ⟨a, b⟩ := p
      subst hp
      subst h
      exact List.mem_cons_self _ _
    · simp only [dget_cons, if_neg hp] at h
      exact List.mem_cons_of_mem p (ih h)

theorem dget_foldl_dset_notmem (charm : Dict) (k : String) (h : k ∉ dkeys charm) :
    ∀ c : Dict, dget (charm.foldl (fun acc p => dset acc p.1 p.2) c) k = dget c k := by
  induction charm with
  | nil => intro c; rfl
  | cons p ps ih =>
    simp only [dkeys, List.map_cons, List.mem_cons, not_or] at h
    intro c
    simp only [List.foldl_cons]
    rw [ih (by simpa [dkeys] using h.2) (dset c p.1 p.2),
      dget_dset_ne c p.1 k p.2 (fun hk => h.1 hk.symm)]

theorem dget_foldl_dset_mem (charm : Dict) (k : String) (v : JVal)
    (hch : (dkeys charm).Nodup) (h : dget charm k = some v) :
    ∀ c : Dict, dget (charm.foldl (fun acc p => dset acc p.1 p.2) c) k = some v := by
  induction charm with
  | nil => simp at h
  | cons p ps ih =>
    intro c
    simp only [dkeys, List.map_cons, List.nodup_cons] at hch
    by_cases hp : p.1 = k
    · simp only [dget_cons, if_pos hp, Option.some.injEq] at h
      simp only [List.foldl_cons]
      rw [dget_foldl_dset_notmem ps k (by rw [← hp]; exact hch.1) (dset c p.1 p.2),
        ← hp, ← h, dget_dset_self]
    · simp only [dget_cons, if_neg hp] at h
      simp only [List.foldl_cons]
      exact ih hch.2 h (dset c p.1 p.2)

theorem dget_dropEmpty_of_keep (d : Dict) (k : String) (v : JVal)
    (h : dget d k = some v) (hv : isDropped v = false) :
    dget (dropEmpty d) k = some v := by
  induction d with
  | nil => simp at h
  | cons p ps ih =>
    rw [dropEmpty, List.filter_cons]
    by_cases hp : p.1 = k
    · rw [dget_cons, if_pos hp] at h
      injection h with h
      subst h
      simp [hv, hp]
    · rw [dget_cons, if_neg hp] at h
      have ihps := ih h
      rw [dropEmpty] at ihps
      by_cases hdrop : isDropped p.2
      · simp [hdrop, ihps]
      · simp [hdrop, hp, ihps]

theorem dget_dropEmpty_none (d : Dict) (k : String) (h : dget d k = none) :
    dget (dropEmpty d) k = none := by
  induction d with
  | nil => simp [dropEmpty]
  | cons p ps ih =>
    rw [dget_cons] at h
    by_cases hp : p.1 = k
    · rw [if_pos hp] at h; exact absurd h (by simp)
    · rw [if_neg hp] at h
      have ihps := ih h
      rw [dropEmpty] at ihps
      rw [dropEmpty, List.filter_cons]
      by_cases hdrop : isDropped p.2
      · simp [hdrop, ihps]
      · simp [hdrop, hp, ihps]

theorem not_dropped_of_dget_dropEmpty (d : Dict) (k : String) (v : JVal)
    (h : dget (dropEmpty d) k = some v) : isDropped v = false := by
  have hmem := mem_of_dget _ _ _ h
  have := List.of_mem_filter hmem
  simpa using this

/-! ### Characterization of `evaluate` -/

theorem evalLoop_eq_find (props : List String) (c : Dict) :
    evalLoop props c = (props.find? (fun p => !truthyOpt (dget c p))).map waitingMsg := by
  induction props with
  | nil => rfl
  | cons p ps ih =>
    simp only [evalLoop, List.find?]
    by_cases h : truthyOpt (dget c p)
    · simp [h, ih]
    · simp [h]

/-! ### Helper lemmas about the post-processed config -/

theorem dget_config_storage_release (integrator : Integrator) (kube_control : KubeControl)
    (control_plane : Option ControlPlane) (charm_data : Dict) :
    dget (VsphereStorageManifests.config integrator kube_control control_plane charm_data)
      "storage-release" = none := by
  unfold VsphereStorageManifests.config renameRelease
  rw [dget_dset_ne _ _ _ _ (by decide)]
  exact dget_ddel_self _ _
    (nodup_dkeys_dropEmpty _ (nodup_dkeys_mergedConfig integrator kube_control control_plane charm_data))

theorem dget_config_release (integrator : Integrator) (kube_control : KubeControl)
    (control_plane : Option ControlPlane) (charm_data : Dict) :
    dget (VsphereStorageManifests.config integrator kube_control control_plane charm_data)
      "release" =
    some ((dget (dropEmpty (mergedConfig integrator kube_control control_plane charm_data))
      "storage-release").getD JVal.null) := by
  unfold VsphereStorageManifests.config renameRelease
  exact dget_dset_self _ _ _

theorem dget_config_other (integrator : Integrator) (kube_control : KubeControl)
    (control_plane : Option ControlPlane) (charm_data : Dict) (k : String)
    (hk : k ≠ "release") (hk' : k ≠ "storage-release") :
    dget (VsphereStorageManifests.config integrator kube_control control_plane charm_data) k =
    dget (dropEmpty (mergedConfig integrator kube_control control_plane charm_data)) k := by
  unfold VsphereStorageManifests.config renameRelease
  rw [dget_dset_ne _ _ _ _ (fun h => hk h.symm),
    dget_ddel_ne _ _ _ (fun h => hk' h.symm)]

/-- C1: for every effective config, `evaluate` checks the required keys in
the fixed order `server`, `username`, `password`, `datacenter`,
`control-node-selector` and returns the human-readable waiting message
naming the first key whose value is missing or falsy (short-circuiting,
reporting only that one key); it returns nothing exactly when all five are
present and truthy. -/
theorem evaluate_reports_first_missing (c : Dict) :
    VsphereStorageManifests.evaluate c =
      (requiredProps.find? (fun p => !truthyOpt (dget c p))).map waitingMsg ∧
    (VsphereStorageManifests.evaluate c = none ↔
      ∀ p ∈ requiredProps, truthyOpt (dget c p) = true) := by
  refine ⟨evalLoop_eq_find requiredProps c, ?_⟩
  rw [VsphereStorageManifests.evaluate, evalLoop_eq_find]
  simp [List.find?_eq_none]

/-- Witness for C1 at the spec's example config (`server` absent, the four
other required keys present and truthy): the message names `server`. -/
theorem evaluate_reports_first_missing_witness :
    VsphereStorageManifests.evaluate
      [("username", JVal.str "u"), ("password", JVal.str "p"),
       ("datacenter", JVal.str "d"),
       ("control-node-selector", JVal.obj [("a", JVal.int 1)])] =
      some "Storage manifests waiting for definition of server" :=
  (evaluate_reports_first_missing _).1.trans rfl

/-- C5: for every combination of source data, the post-processing first
removes every key whose value is the empty string or `None`, then
unconditionally renames `storage-release` to `release`: the `release` key
is always present in the result (with the `None` default exactly when
`storage-release` did not survive the drop pass), no `storage-release` key
remains, and every other surviving value is neither empty nor `None`. -/
theorem config_release_normalization (integrator : Integrator) (kube_control : KubeControl)
    (control_plane : Option ControlPlane) (charm_data : Dict) :
    dget (VsphereStorageManifests.config integrator kube_control control_plane charm_data)
      "storage-release" = none ∧
    dget (VsphereStorageManifests.config integrator kube_control control_plane charm_data)
      "release" =
      some ((dget (dropEmpty (mergedConfig integrator kube_control control_plane charm_data))
        "storage-release").getD JVal.null) ∧
    (∀ k v,
      dget (VsphereStorageManifests.config integrator kube_control control_plane charm_data) k =
        some v → k ≠ "release" → isDropped v = false) := by
  refine ⟨dget_config_storage_release _ _ _ _, dget_config_release _ _ _ _, ?_⟩
  intro k v hget hk
  by_cases hk' : k = "storage-release"
  · rw [hk', dget_config_storage_release] at hget
    exact absurd hget (by simp)
  · rw [dget_config_other _ _ _ _ k hk hk'] at hget
    exact not_dropped_of_dget_dropEmpty _ _ _ hget

/-- Witness for C5 at the spec's example: config sources supplying only
`storage-release: "1.2.3"` produce an effective config with
`release: "1.2.3"` and no `storage-release` key. -/
theorem config_release_normalization_witness :
    dget (VsphereStorageManifests.config
        ⟨false, JVal.null, JVal.null, JVal.null, JVal.null⟩ ⟨false, JVal.null⟩ none
        [("storage-release", JVal.str "1.2.3")]) "storage-release" = none ∧
    dget (VsphereStorageManifests.config
        ⟨false, JVal.null, JVal.null, JVal.null, JVal.null⟩ ⟨false, JVal.null⟩ none
        [("storage-release", JVal.str "1.2.3")]) "release" = some (JVal.str "1.2.3") :=
  ⟨(config_release_normalization _ _ _ _).1,
   (config_release_normalization _ _ _ _).2.1.trans rfl⟩

/-- C9: when the static charm configuration supplies a pass-through
`release` key (surviving the drop pass) and no `storage-release` key
survives, the unconditional rename overwrites it: the effective config's
`release` value is `None`, not the charm-supplied string. -/
theorem config_charm_release_overwritten (integrator : Integrator) (kube_control : KubeControl)
    (control_plane : Option ControlPlane) (charm_data : Dict) (v : String)
    (hch : dget charm_data "release" = some (JVal.str v))
    (hv : v ≠ "")
    (hnodup : (dkeys charm_data).Nodup)
    (hsr : dget (dropEmpty (mergedConfig integrator kube_control control_plane charm_data))
      "storage-release" = none) :
    dget (dropEmpty (mergedConfig integrator kube_control control_plane charm_data))
      "release" = some (JVal.str v) ∧
    dget (VsphereStorageManifests.config integrator kube_control control_plane charm_data)
      "release" = some JVal.null ∧
    JVal.null ≠ JVal.str v := by
  refine ⟨?_, ?_, by simp⟩
  · apply dget_dropEmpty_of_keep
    · unfold mergedConfig
      exact dget_foldl_dset_mem charm_data "release" (JVal.str v) hnodup hch _
    · simp only [isDropped, Bool.eq_false_iff, Ne, String.isEmpty_iff]
      exact hv
  · rw [dget_config_release, hsr]
    rfl

/-- Witness for C9: a charm config supplying `release: "9.9"` and nothing
else still yields `release: None` in the effective config. -/
theorem config_charm_release_overwritten_witness :
    dget (dropEmpty (mergedConfig
        ⟨false, JVal.null, JVal.null, JVal.null, JVal.null⟩ ⟨false, JVal.null⟩ none
        [("release", JVal.str "9.9")])) "release" = some (JVal.str "9.9") ∧
    dget (VsphereStorageManifests.config
        ⟨false, JVal.null, JVal.null, JVal.null, JVal.null⟩ ⟨false, JVal.null⟩ none
        [("release", JVal.str "9.9")]) "release" = some JVal.null ∧
    JVal.null ≠ JVal.str "9.9" :=
  config_charm_release_overwritten _ _ _ _ "9.9" rfl (by decide) (by simp [dkeys]) rfl

/-! ### `UpdateDeployment.__call__` (source lines 30-52)

A Kubernetes resource object is a Python dict (`Dict`); reading
`obj["k"]` on a missing key raises `KeyError` and subscripting a non-dict
raises `TypeError` — both modelled by `none` (the render cycle fails fast,
spec §7).  `obj.get("kind") == "Deployment"` never raises. -/

/-- `obj.get("kind") == "Deployment"`: `True` only when the key is present
and holds exactly the string `"Deployment"`. -/
def kindIsDeployment (obj : Dict) : Bool :=
  match dget obj "kind" with
  | some (JVal.str s) => s == "Deployment"
  | _ => false

/-- `obj["metadata"]["name"] == "vsphere-csi-controller"`: `none` when
`metadata` is absent or not a dict or has no `name` key (raised exception),
otherwise whether the name equals the fixed controller name (comparison
with a non-string name is simply `False`). -/
def deploymentNameMatch (obj : Dict) : Option Bool :=
  match dget obj "metadata" with
  | some (JVal.obj meta) =>
    match dget meta "name" with
    | some (JVal.str name) => some (name == "vsphere-csi-controller")
    | some _ => some false
    | none => none
  | _ => none

/-- Body of `UpdateDeployment.__call__` after the kind/name match succeeded:
check that `control-node-selector` is a dict (else log an error and return
without mutating), set `spec.template.spec.nodeSelector`, then — if
`replicas` is truthy — set `spec.replicas`, else log a warning that reads
the pre-existing `obj["spec"]["replicas"]` (raising if it is absent). -/
def updateMatchedDeployment (config : Dict) (obj : Dict) : Option Dict :=
  match dget config "control-node-selector" with
  | some (JVal.obj ns) =>
    match dget obj "spec" with
    | some (JVal.obj spec) =>
      match dget spec "template" with
      | some (JVal.obj tmpl) =>
        match dget tmpl "spec" with
        | some (JVal.obj tspec) =>
          let spec' := dset spec "template"
            (JVal.obj (dset tmpl "spec" (JVal.obj (dset tspec "nodeSelector" (JVal.obj ns)))))
          let obj' := dset obj "spec" (JVal.obj spec')
          match dget config "replicas" with
          | some r =>
            if truthy r then
              some (dset obj' "spec" (JVal.obj (dset spec' "replicas" r)))
            else
              match dget spec' "replicas" with
              | some _ => some obj'
              | none => none
          | none =>
            match dget spec' "replicas" with
            | some _ => some obj'
            | none => none
        | _ => none
      | _ => none
    | _ => none
  | _ => some obj

/-- `UpdateDeployment.__call__`: no-op unless the object is the
`vsphere-csi-controller` Deployment, then apply the node-selector and
replica mutations. -/
def UpdateDeployment.call (config : Dict) (obj : Dict) : Option Dict :=
  if kindIsDeployment obj then
    match deploymentNameMatch obj with
    | some true => updateMatchedDeployment config obj
    | some false => some obj
    | none => none
  else some obj

/-- Read `v[k]` when `v` is a dict value: used to state what the patched
deployment contains. -/
def jgetObj (v : Option JVal) (k : String) : Option JVal :=
  match v with
  | some (JVal.obj d) => dget d k
  | _ => none

/-- The node selector stored at `spec.template.spec.nodeSelector` of a
resource object. -/
def nodeSelectorOf (obj : Dict) : Option JVal :=
  jgetObj (jgetObj (jgetObj (dget obj "spec") "template") "spec") "nodeSelector"

/-- The replica count stored at `spec.replicas` of a resource object. -/
def replicasOf (obj : Dict) : Option JVal :=
  jgetObj (dget obj "spec") "replicas"

/-! ### Helper lemmas about `UpdateDeployment` -/

theorem kindIsDeployment_true (obj : Dict)
    (hkind : dget obj "kind" = some (JVal.str "Deployment")) :
    kindIsDeployment obj = true := by
  simp [kindIsDeployment, hkind]

theorem deploymentNameMatch_true (obj meta : Dict)
    (hmeta : dget obj "metadata" = some (JVal.obj meta))
    (hname : dget meta "name" = some (JVal.str "vsphere-csi-controller")) :
    deploymentNameMatch obj = some true := by
  simp [deploymentNameMatch, hmeta, hname]

theorem call_of_matched (config obj meta : Dict)
    (hkind : dget obj "kind" = some (JVal.str "Deployment"))
    (hmeta : dget obj "metadata" = some (JVal.obj meta))
    (hname : dget meta "name" = some (JVal.str "vsphere-csi-controller")) :
    UpdateDeployment.call config obj = updateMatchedDeployment config obj := by
  unfold UpdateDeployment.call
  rw [kindIsDeployment_true obj hkind, deploymentNameMatch_true obj meta hmeta hname]
  rfl

theorem matched_selector_not_dict (config obj : Dict)
    (h : ∀ d : Dict, dget config "control-node-selector" ≠ some (JVal.obj d)) :
    updateMatchedDeployment config obj = some obj := by
  unfold updateMatchedDeployment
  cases hsel : dget config "control-node-selector" with
  | none => rfl
  | some v =>
    cases v with
    | obj d => exact absurd hsel (h d)
    | str s => rfl
    | int n => rfl
    | null => rfl
    | arr l => rfl

theorem matched_sets_selector_truthy (config obj spec tmpl tspec m : Dict) (r : JVal)
    (hsel : dget config "control-node-selector" = some (JVal.obj m))
    (hspec : dget obj "spec" = some (JVal.obj spec))
    (htmpl : dget spec "template" = some (JVal.obj tmpl))
    (htspec : dget tmpl "spec" = some (JVal.obj tspec))
    (hr : dget config "replicas" = some r) (htr : truthy r = true) :
    ∃ res, updateMatchedDeployment config obj = some res ∧
      nodeSelectorOf res = some (JVal.obj m) ∧ replicasOf res = some r := by
  simp only [updateMatchedDeployment, hsel, hspec, htmpl, htspec, hr, htr, if_true]
  refine ⟨_, rfl, ?_, ?_⟩
  · simp [nodeSelectorOf, jgetObj, dget_dset_self, dget_dset_ne]
  · simp [replicasOf, jgetObj, dget_dset_self]

theorem matched_sets_selector_falsy (config obj spec tmpl tspec m : Dict) (r₀ : JVal)
    (hsel : dget config "control-node-selector" = some (JVal.obj m))
    (hspec : dget obj "spec" = some (JVal.obj spec))
    (htmpl : dget spec "template" = some (JVal.obj tmpl))
    (htspec : dget tmpl "spec" = some (JVal.obj tspec))
    (hfal : truthyOpt (dget config "replicas") = false)
    (hr₀ : dget spec "replicas" = some r₀) :
    ∃ res, updateMatchedDeployment config obj = some res ∧
      nodeSelectorOf res = some (JVal.obj m) ∧ replicasOf res = some r₀ := by
  have hpre : dget (dset spec "template"
      (JVal.obj (dset tmpl "spec" (JVal.obj (dset tspec "nodeSelector" (JVal.obj m))))))
      "replicas" = some r₀ := by
    rw [dget_dset_ne _ _ _ _ (by decide)]
    exact hr₀
  have hsides :
      nodeSelectorOf (dset obj "spec" (JVal.obj (dset spec "template"
        (JVal.obj (dset tmpl "spec" (JVal.obj (dset tspec "nodeSelector" (JVal.obj m)))))))) =
        some (JVal.obj m) ∧
      replicasOf (dset obj "spec" (JVal.obj (dset spec "template"
        (JVal.obj (dset tmpl "spec" (JVal.obj (dset tspec "nodeSelector" (JVal.obj m)))))))) =
        some r₀ := by
    constructor
    · simp [nodeSelectorOf, jgetObj, dget_dset_self]
    · simp [replicasOf, jgetObj, dget_dset_self, hpre]
  cases hr : dget config "replicas" with
  | none =>
    simp only [updateMatchedDeployment, hsel, hspec, htmpl, htspec, hr, hpre]
    exact ⟨_, rfl, hsides.1, hsides.2⟩
  | some r =>
    rw [hr] at hfal
    simp only [truthyOpt] at hfal
    simp only [updateMatchedDeployment, hsel, hspec, htmpl, htspec, hr, hfal,
      if_false, hpre]
    exact ⟨_, rfl, hsides.1, hsides.2⟩

/-- A concrete controller Deployment document used by witnesses: it carries
a pre-existing replica count of 1 and an empty pod-template spec. -/
def sampleDeployment : Dict :=
  [("kind", JVal.str "Deployment"),
   ("metadata", JVal.obj [("name", JVal.str "vsphere-csi-controller")]),
   ("spec", JVal.obj
     [("replicas", JVal.int 1),
      ("template", JVal.obj [("spec", JVal.obj [])])])]

/-- C7: on the matching controller Deployment, with `control-node-selector`
a mapping `m` and `replicas = 3`, the patch sets
`spec.template.spec.nodeSelector` to `m` and `spec.replicas` to 3; with
`replicas` absent, `spec.replicas` keeps its pre-existing value. -/
theorem updateDeployment_selector_and_replicas
    (config obj meta spec tmpl tspec m : Dict)
    (hkind : dget obj "kind" = some (JVal.str "Deployment"))
    (hmeta : dget obj "metadata" = some (JVal.obj meta))
    (hname : dget meta "name" = some (JVal.str "vsphere-csi-controller"))
    (hsel : dget config "control-node-selector" = some (JVal.obj m))
    (hspec : dget obj "spec" = some (JVal.obj spec))
    (htmpl : dget spec "template" = some (JVal.obj tmpl))
    (htspec : dget tmpl "spec" = some (JVal.obj tspec)) :
    (dget config "replicas" = some (JVal.int 3) →
      ∃ res, UpdateDeployment.call config obj = some res ∧
        nodeSelectorOf res = some (JVal.obj m) ∧
        replicasOf res = some (JVal.int 3)) ∧
    (dget config "replicas" = none → ∀ r₀, dget spec "replicas" = some r₀ →
      ∃ res, UpdateDeployment.call config obj = some res ∧
        nodeSelectorOf res = some (JVal.obj m) ∧
        replicasOf res = some r₀) := by
  constructor
  · intro hr
    rw [call_of_matched config obj meta hkind hmeta hname]
    exact matched_sets_selector_truthy config obj spec tmpl tspec m _
      hsel hspec htmpl htspec hr rfl
  · intro hr r₀ hr₀
    rw [call_of_matched config obj meta hkind hmeta hname]
    exact matched_sets_selector_falsy config obj spec tmpl tspec m r₀
      hsel hspec htmpl htspec (by rw [hr]; rfl) hr₀

/-- Witness for C7 on a concrete Deployment: replicas present (3) in the
first conjunct; replicas absent keeps the pre-existing count 1 in the
second. -/
theorem updateDeployment_selector_and_replicas_witness :
    (∃ res, UpdateDeployment.call
        [("control-node-selector", JVal.obj [("juju-application", JVal.str "app1")]),
         ("replicas", JVal.int 3)] sampleDeployment = some res ∧
      nodeSelectorOf res = some (JVal.obj [("juju-application", JVal.str "app1")]) ∧
      replicasOf res = some (JVal.int 3)) ∧
    (∃ res, UpdateDeployment.call
        [("control-node-selector", JVal.obj [("juju-application", JVal.str "app1")])]
        sampleDeployment = some res ∧
      nodeSelectorOf res = some (JVal.obj [("juju-application", JVal.str "app1")]) ∧
      replicasOf res = some (JVal.int 1)) :=
  ⟨(updateDeployment_selector_and_replicas
      [("control-node-selector", JVal.obj [("juju-application", JVal.str "app1")]),
       ("replicas", JVal.int 3)]
      sampleDeployment
      [("name", JVal.str "vsphere-csi-controller")]
      [("replicas", JVal.int 1), ("template", JVal.obj [("spec", JVal.obj [])])]
      [("spec", JVal.obj [])] []
      [("juju-application", JVal.str "app1")]
      rfl rfl rfl rfl rfl rfl rfl).1 rfl,
   (updateDeployment_selector_and_replicas
      [("control-node-selector", JVal.obj [("juju-application", JVal.str "app1")])]
      sampleDeployment
      [("name", JVal.str "vsphere-csi-controller")]
      [("replicas", JVal.int 1), ("template", JVal.obj [("spec", JVal.obj [])])]
      [("spec", JVal.obj [])] []
      [("juju-application", JVal.str "app1")]
      rfl rfl rfl rfl rfl rfl rfl).2 rfl
      (JVal.int 1) rfl⟩

/-- C8: an object whose `kind` is not exactly the string `"Deployment"`, or
whose `metadata.name` resolves to something other than the fixed controller
name, passes through `UpdateDeployment` completely unchanged, for every
config. -/
theorem updateDeployment_nonmatching_unchanged (config obj : Dict)
    (h : kindIsDeployment obj = false ∨
      ∃ meta name, dget obj "metadata" = some (JVal.obj meta) ∧
        dget meta "name" = some name ∧ name ≠ JVal.str "vsphere-csi-controller") :
    UpdateDeployment.call config obj = some obj := by
  rcases h with h | ⟨meta, name, hmeta, hname, hne⟩
  · simp [UpdateDeployment.call, h]
  · cases hk : kindIsDeployment obj with
    | false => simp [UpdateDeployment.call, hk]
    | true =>
      have hnm : deploymentNameMatch obj = some false := by
        cases name with
        | str s =>
          have hs : s ≠ "vsphere-csi-controller" := by
            intro he
            exact hne (by rw [he])
          simp [deploymentNameMatch, hmeta, hname, hs]
        | int n => simp [deploymentNameMatch, hmeta, hname]
        | null => simp [deploymentNameMatch, hmeta, hname]
        | obj d => simp [deploymentNameMatch, hmeta, hname]
        | arr l => simp [deploymentNameMatch, hmeta, hname]
      simp [UpdateDeployment.call, hk, hnm]

/-- Witness for C8: a `Service` object is unchanged even under a config that
would mutate the controller Deployment. -/
theorem updateDeployment_nonmatching_unchanged_witness :
    UpdateDeployment.call
      [("control-node-selector", JVal.obj [("juju-application", JVal.str "app1")]),
       ("replicas", JVal.int 3)]
      [("kind", JVal.str "Service"),
       ("metadata", JVal.obj [("name", JVal.str "vsphere-csi-controller")])] =
    some [("kind", JVal.str "Service"),
       ("metadata", JVal.obj [("name", JVal.str "vsphere-csi-controller")])] :=
  updateDeployment_nonmatching_unchanged _ _ (Or.inl rfl)

/-- C6 counterexample: on the matching controller Deployment, with
`control-node-selector` bound to the non-mapping string `"bad"` and a
truthy `replicas = 3`, the patch returns the object completely unchanged —
its `spec.replicas` stays 1 instead of being set to 3.  The malformed
node-selector therefore DOES prevent the replicas update, refuting the
claimed independence in that direction. -/
theorem updateDeployment_malformed_selector_blocks_replicas :
    UpdateDeployment.call
      [("control-node-selector", JVal.str "bad"), ("replicas", JVal.int 3)]
      sampleDeployment = some sampleDeployment ∧
    replicasOf sampleDeployment = some (JVal.int 1) ∧
    JVal.int 1 ≠ JVal.int 3 := by
  refine ⟨rfl, rfl, by simp⟩

/-- C6 (amended): on the matching controller Deployment the two updates are
NOT mutually independent.  A missing or falsy replica count does not
prevent the node-selector update (the selector is still applied and the
pre-existing replica count kept), but a `control-node-selector` that is not
a mapping aborts the whole patch: neither the node selector nor the replica
count is modified. -/
theorem updateDeployment_selector_gates_replicas
    (config obj meta spec tmpl tspec m : Dict)
    (hkind : dget obj "kind" = some (JVal.str "Deployment"))
    (hmeta : dget obj "metadata" = some (JVal.obj meta))
    (hname : dget meta "name" = some (JVal.str "vsphere-csi-controller"))
    (hspec : dget obj "spec" = some (JVal.obj spec))
    (htmpl : dget spec "template" = some (JVal.obj tmpl))
    (htspec : dget tmpl "spec" = some (JVal.obj tspec)) :
    (dget config "control-node-selector" = some (JVal.obj m) →
      truthyOpt (dget config "replicas") = false →
      ∀ r₀, dget spec "replicas" = some r₀ →
      ∃ res, UpdateDeployment.call config obj = some res ∧
        nodeSelectorOf res = some (JVal.obj m) ∧ replicasOf res = some r₀) ∧
    ((∀ d : Dict, dget config "control-node-selector" ≠ some (JVal.obj d)) →
      UpdateDeployment.call config obj = some obj) := by
  constructor
  · intro hsel hfal r₀ hr₀
    rw [call_of_matched config obj meta hkind hmeta hname]
    exact matched_sets_selector_falsy config obj spec tmpl tspec m r₀
      hsel hspec htmpl htspec hfal hr₀
  · intro hnd
    rw [call_of_matched config obj meta hkind hmeta hname]
    exact matched_selector_not_dict config obj hnd

/-- Witness for C6 (amended) on the concrete Deployment: an absent replica
count still applies the node selector and keeps replicas 1; a string-valued
node selector leaves the object untouched. -/
theorem updateDeployment_selector_gates_replicas_witness :
    (∃ res, UpdateDeployment.call
        [("control-node-selector", JVal.obj [("juju-application", JVal.str "app1")])]
        sampleDeployment = some res ∧
      nodeSelectorOf res = some (JVal.obj [("juju-application", JVal.str "app1")]) ∧
      replicasOf res = some (JVal.int 1)) ∧
    UpdateDeployment.call [("control-node-selector", JVal.str "bad")] sampleDeployment =
      some sampleDeployment :=
  ⟨(updateDeployment_selector_gates_replicas
      [("control-node-selector", JVal.obj [("juju-application", JVal.str "app1")])]
      sampleDeployment
      [("name", JVal.str "vsphere-csi-controller")]
      [("replicas", JVal.int 1), ("template", JVal.obj [("spec", JVal.obj [])])]
      [("spec", JVal.obj [])] []
      [("juju-application", JVal.str "app1")]
      rfl rfl rfl rfl rfl rfl).1 rfl rfl (JVal.int 1) rfl,
   (updateDeployment_selector_gates_replicas
      [("control-node-selector", JVal.str "bad")]
      sampleDeployment
      [("name", JVal.str "vsphere-csi-controller")]
      [("replicas", JVal.int 1), ("template", JVal.obj [("spec", JVal.obj [])])]
      [("spec", JVal.obj [])] []
      [("juju-application", JVal.str "app1")]
      rfl rfl rfl rfl rfl rfl).2 (by intro d h; cases h)⟩

/-- C10: with a control-plane relation present but zero related units (and
the charm config overriding neither key), the effective config carries
`replicas = 0` — the drop pass removes only empty strings and `None`, not
zero — and `UpdateDeployment` treats that 0 as falsy, leaving the matching
Deployment's pre-existing `spec.replicas` untouched. -/
theorem zero_units_keeps_existing_replicas
    (integrator : Integrator) (kube_control : KubeControl) (charm_data : Dict)
    (cp_name : String) (obj meta spec tmpl tspec : Dict) (r₀ : JVal)
    (hch_rep : "replicas" ∉ dkeys charm_data)
    (hch_sel : "control-node-selector" ∉ dkeys charm_data)
    (hkind : dget obj "kind" = some (JVal.str "Deployment"))
    (hmeta : dget obj "metadata" = some (JVal.obj meta))
    (hname : dget meta "name" = some (JVal.str "vsphere-csi-controller"))
    (hspec : dget obj "spec" = some (JVal.obj spec))
    (htmpl : dget spec "template" = some (JVal.obj tmpl))
    (htspec : dget tmpl "spec" = some (JVal.obj tspec))
    (hr₀ : dget spec "replicas" = some r₀) :
    dget (VsphereStorageManifests.config integrator kube_control
        (some ⟨cp_name, 0⟩) charm_data) "replicas" = some (JVal.int 0) ∧
    ∃ res, UpdateDeployment.call
        (VsphereStorageManifests.config integrator kube_control
          (some ⟨cp_name, 0⟩) charm_data) obj = some res ∧
      nodeSelectorOf res = some (JVal.obj [("juju-application", JVal.str cp_name)]) ∧
      replicasOf res = some r₀ := by
  have hrep_merged : dget (mergedConfig integrator kube_control
      (some ⟨cp_name, 0⟩) charm_data) "replicas" = some (JVal.int 0) := by
    simp only [mergedConfig]
    rw [dget_foldl_dset_notmem charm_data _ hch_rep]
    exact dget_dset_self _ _ _
  have hsel_merged : dget (mergedConfig integrator kube_control
      (some ⟨cp_name, 0⟩) charm_data) "control-node-selector" =
      some (JVal.obj [("juju-application", JVal.str cp_name)]) := by
    simp only [mergedConfig]
    rw [dget_foldl_dset_notmem charm_data _ hch_sel,
      dget_dset_ne _ _ _ _ (by decide)]
    exact dget_dset_self _ _ _
  have hrep : dget (VsphereStorageManifests.config integrator kube_control
      (some ⟨cp_name, 0⟩) charm_data) "replicas" = some (JVal.int 0) := by
    rw [dget_config_other _ _ _ _ _ (by decide) (by decide)]
    exact dget_dropEmpty_of_keep _ _ _ hrep_merged rfl
  have hsel : dget (VsphereStorageManifests.config integrator kube_control
      (some ⟨cp_name, 0⟩) charm_data) "control-node-selector" =
      some (JVal.obj [("juju-application", JVal.str cp_name)]) := by
    rw [dget_config_other _ _ _ _ _ (by decide) (by decide)]
    exact dget_dropEmpty_of_keep _ _ _ hsel_merged rfl
  refine ⟨hrep, ?_⟩
  rw [call_of_matched _ obj meta hkind hmeta hname]
  exact matched_sets_selector_falsy _ obj spec tmpl tspec _ r₀
    hsel hspec htmpl htspec (by rw [hrep]; rfl) hr₀

/-- Witness for C10: no integrator/kube-control data, empty charm config, a
control-plane app named `"k8s-cp"` with zero units, and the concrete
Deployment: `replicas` resolves to 0 and the patched object keeps its
pre-existing `spec.replicas = 1`. -/
theorem zero_units_keeps_existing_replicas_witness :
    dget (VsphereStorageManifests.config
        ⟨false, JVal.null, JVal.null, JVal.null, JVal.null⟩ ⟨false, JVal.null⟩
        (some ⟨"k8s-cp", 0⟩) []) "replicas" = some (JVal.int 0) ∧
    ∃ res, UpdateDeployment.call
        (VsphereStorageManifests.config
          ⟨false, JVal.null, JVal.null, JVal.null, JVal.null⟩ ⟨false, JVal.null⟩
          (some ⟨"k8s-cp", 0⟩) []) sampleDeployment = some res ∧
      nodeSelectorOf res = some (JVal.obj [("juju-application", JVal.str "k8s-cp")]) ∧
      replicasOf res = some (JVal.int 1) :=
  zero_units_keeps_existing_replicas
    ⟨false, JVal.null, JVal.null, JVal.null, JVal.null⟩ ⟨false, JVal.null⟩ []
    "k8s-cp" sampleDeployment
    [("name", JVal.str "vsphere-csi-controller")]
    [("replicas", JVal.int 1), ("template", JVal.obj [("spec", JVal.obj [])])]
    [("spec", JVal.obj [])] [] (JVal.int 1)
    (by simp [dkeys]) (by simp [dkeys]) rfl rfl rfl rfl rfl rfl rfl

/-! ### `CreateSecret.__call__` (source lines 58-85) -/

/-- Python `repr` of a value, used by `str()` for members nested inside a
dict or list (escaping of exotic characters inside a string repr is
elided; the secret theorems only touch string-typed config values, which
the f-string renders verbatim through `pyStr`). -/
def pyRepr : JVal → String
  | .str s => "'" ++ s ++ "'"
  | .int n => toString n
  | .null => "None"
  | .obj xs => "\x7b" ++ String.intercalate ", "
      (xs.attach.map (fun q => "'" ++ q.1.1 ++ "': " ++ pyRepr q.1.2)) ++ "\x7d"
  | .arr xs => "[" ++ String.intercalate ", " (xs.attach.map (fun q => pyRepr q.1)) ++ "]"
termination_by v => sizeOf v
decreasing_by
  · obtain ⟨⟨k, v⟩, hq⟩ := q
    have := List.sizeOf_lt_of_mem hq
    simp at *
    omega
  · obtain ⟨x, hq⟩ := q
    have := List.sizeOf_lt_of_mem hq
    simp at *
    omega

/-- Python `str`, as applied by the f-string interpolation in the secret
blob: a string is rendered verbatim, everything else via its repr. -/
def pyStr : JVal → String
  | .str s => s
  | v => pyRepr v

/-- The vendor configuration blob built by `CreateSecret.__call__`
(source lines 68-78), with the deployment's model uuid as `cluster-id`. -/
def secretConf (model_uuid user passwd server datacenter : String) : String :=
  "[Global]\ncluster-id = \"" ++ model_uuid ++
  "\"\n\n[VirtualCenter \"" ++ server ++
  "\"]\ninsecure-flag = \"true\"\nuser = \"" ++ user ++
  "\"\npassword = \"" ++ passwd ++
  "\"\nport = \"443\"\ndatacenters = \"" ++ datacenter ++ "\"\n"

/-- UTF-8 encoding of one character (`str.encode`). -/
def utf8Char (c : Char) : List Nat :=
  let n := c.toNat
  if n < 0x80 then [n]
  else if n < 0x800 then [0xC0 + n / 0x40, 0x80 + n % 0x40]
  else if n < 0x10000 then
    [0xE0 + n / 0x1000, 0x80 + n / 0x40 % 0x40, 0x80 + n % 0x40]
  else
    [0xF0 + n / 0x40000, 0x80 + n / 0x1000 % 0x40, 0x80 + n / 0x40 % 0x40,
     0x80 + n % 0x40]

/-- UTF-8 encoding of a character list. -/
def utf8Bytes : List Char → List Nat
  | [] => []
  | c :: cs => utf8Char c ++ utf8Bytes cs

/-- `s.encode("utf-8")` as a byte list. -/
def utf8Encode (s : String) : List Nat := utf8Bytes s.data

/-- The base64 alphabet used by `base64.b64encode`. -/
def b64Alphabet : List Char :=
  "ABCDEFGHIJKLMNOPQRSTUVWXYZabcdefghijklmnopqrstuvwxyz0123456789+/".data

/-- The alphabet character for a 6-bit group. -/
def b64chr (i : Nat) : Char := b64Alphabet.getD i '?'

/-- `base64.b64encode`: 3-byte groups to 4 characters, `=`-padded. -/
def b64encodeBytes : List Nat → List Char
  | [] => []
  | [b1] => [b64chr (b1 / 4), b64chr (b1 % 4 * 16), '=', '=']
  | [b1, b2] =>
    [b64chr (b1 / 4), b64chr (b1 % 4 * 16 + b2 / 16), b64chr (b2 % 16 * 4), '=']
  | b1 :: b2 :: b3 :: rest =>
    b64chr (b1 / 4) :: b64chr (b1 % 4 * 16 + b2 / 16) ::
    b64chr (b2 % 16 * 4 + b3 / 64) :: b64chr (b3 % 64) :: b64encodeBytes rest

/-- `base64.b64encode(blob.encode()).decode("utf-8")` as used at source
line 84. -/
def b64encodeString (s : String) : String :=
  ⟨b64encodeBytes (utf8Encode s)⟩

/-- The fixed secret name (source line 22). -/
def SECRET_NAME : String := "vsphere-config-secret"

/-- The fixed secret data key (source line 23). -/
def SECRET_DATA : String := "csi-vsphere.conf"

/-- `v is None` for a stored config value. -/
def isNull : JVal → Bool
  | .null => true
  | _ => false

/-- `CreateSecret.__call__`: fetch the four connection values (`None` when
a key is absent), bail out with no object if any is `None` — `any(s is
None for s in secret)` — otherwise wrap the base64-encoded blob in an
Opaque Secret. -/
def CreateSecret.call (config : Dict) (model_uuid : String) : Option Dict :=
  match dget config "username", dget config "password",
        dget config "server", dget config "datacenter" with
  | some user, some passwd, some server, some datacenter =>
    if isNull user || isNull passwd || isNull server || isNull datacenter then
      none
    else
      some [("apiVersion", JVal.str "v1"),
            ("kind", JVal.str "Secret"),
            ("type", JVal.str "Opaque"),
            ("metadata", JVal.obj [("name", JVal.str SECRET_NAME)]),
            ("data", JVal.obj [(SECRET_DATA, JVal.str (b64encodeString
              (secretConf model_uuid (pyStr user) (pyStr passwd)
                (pyStr server) (pyStr datacenter))))])]
  | _, _, _, _ => none

/-! ### Consumer-side decoding of the secret payload -/

/-- Modelled from the spec: the 6-bit value of a base64 alphabet character
(the decoder `base64.b64decode` lives in the CSI driver consuming the
secret, outside this repository; the spec only states that decoding the
payload and parsing the blob recovers the embedded values). -/
def b64val (c : Char) : Option Nat :=
  b64Alphabet.findIdx? (fun a => a == c)

/-- Modelled from the spec: base64 decoding, the inverse of
`b64encodeBytes`, consuming 4 characters per 3 bytes with `=` padding. -/
def b64decodeBytes : List Char → Option (List Nat)
  | [] => some []
  | c1 :: c2 :: c3 :: c4 :: rest =>
    (match b64val c1, b64val c2 with
     | some v1, some v2 =>
       if c3 = '=' ∧ c4 = '=' ∧ rest = [] then some [v1 * 4 + v2 / 16]
       else
         match b64val c3 with
         | some v3 =>
           if c4 = '=' ∧ rest = [] then
             some [v1 * 4 + v2 / 16, v2 % 16 * 16 + v3 / 4]
           else
             match b64val c4, b64decodeBytes rest with
             | some v4, some bs =>
               some ([v1 * 4 + v2 / 16, v2 % 16 * 16 + v3 / 4,
                 v3 % 4 * 64 + v4] ++ bs)
             | _, _ => none
         | none => none
     | _, _ => none)
  | _ => none

theorem b64val_b64chr : ∀ i, i < 64 → b64val (b64chr i) = some i := by decide

theorem b64chr_ne_eq : ∀ i, i < 64 → ¬ b64chr i = '=' := by decide

theorem b64decode_encode (bs : List Nat) (h : ∀ b ∈ bs, b < 256) :
    b64decodeBytes (b64encodeBytes bs) = some bs := by
  induction bs using b64encodeBytes.induct with
  | case1 => rfl
  | case2 b1 =>
    have hb1 : b1 < 256 := h b1 (by simp)
    rw [b64encodeBytes, b64decodeBytes,
      b64val_b64chr _ (by omega), b64val_b64chr _ (by omega)]
    simp
    all_goals omega
  | case3 b1 b2 =>
    have hb1 : b1 < 256 := h b1 (by simp)
    have hb2 : b2 < 256 := h b2 (by simp)
    have hne3 : ¬ b64chr (b2 % 16 * 4) = '=' := b64chr_ne_eq _ (by omega)
    rw [b64encodeBytes, b64decodeBytes,
      b64val_b64chr _ (by omega), b64val_b64chr _ (by omega)]
    simp [hne3, b64val_b64chr _ (show b2 % 16 * 4 < 64 by omega)]
    all_goals omega
  | case4 b1 b2 b3 rest ih =>
    have hb1 : b1 < 256 := h b1 (by simp)
    have hb2 : b2 < 256 := h b2 (by simp)
    have hb3 : b3 < 256 := h b3 (by simp)
    have hrest : ∀ b ∈ rest, b < 256 := fun b hb => h b (by simp [hb])
    have hne3 : ¬ b64chr (b2 % 16 * 4 + b3 / 64) = '=' := b64chr_ne_eq _ (by omega)
    have hne4 : ¬ b64chr (b3 % 64) = '=' := b64chr_ne_eq _ (by omega)
    rw [b64encodeBytes, b64decodeBytes,
      b64val_b64chr _ (by omega), b64val_b64chr _ (by omega)]
    simp [hne3, hne4, b64val_b64chr _ (show b2 % 16 * 4 + b3 / 64 < 64 by omega),
      b64val_b64chr _ (show b3 % 64 < 64 by omega), ih hrest]
    all_goals omega

theorem char_toNat_lt (c : Char) : c.toNat < 1114112 := by
  rcases c.valid with h | ⟨_, h⟩
  · exact Nat.lt_trans h (by norm_num)
  · exact h

theorem utf8Char_lt_256 (c : Char) : ∀ b ∈ utf8Char c, b < 256 := by
  have hc := char_toNat_lt c
  intro b hb
  simp only [utf8Char] at hb
  split_ifs at hb <;> simp at hb <;> omega

theorem utf8Bytes_lt_256 (cs : List Char) : ∀ b ∈ utf8Bytes cs, b < 256 := by
  induction cs with
  | nil =>
    intro b hb
    simp [utf8Bytes] at hb
  | cons c cs ih =>
    intro b hb
    simp only [utf8Bytes, List.mem_append] at hb
    rcases hb with hb | hb
    · exact utf8Char_lt_256 c b hb
    · exact ih b hb

/-- Modelled from the spec: consume an expected literal character sequence
of the fixed blob layout. -/
def expectChars : List Char → List Char → Option (List Char)
  | [], rest => some rest
  | e :: es, c :: cs => if c = e then expectChars es cs else none
  | _ :: _, [] => none

/-- Modelled from the spec: read a double-quoted field up to (and
consuming) the closing quote. -/
def takeUntilQuote : List Char → Option (List Char × List Char)
  | [] => none
  | c :: cs =>
    if c = '"' then some ([], cs)
    else
      match takeUntilQuote cs with
      | some (v, rest) => some (c :: v, rest)
      | none => none

/-- Modelled from the spec: the consumer-side parse of the vendor
configuration blob (done by the CSI driver that mounts the secret, outside
this repository).  It walks the fixed section/key layout produced by
`CreateSecret` and extracts the five double-quoted fields: cluster id,
server, user, password, datacenters. -/
def parseBlob (s : String) : Option (String × String × String × String × String) := do
  let r ← expectChars "[Global]\ncluster-id = \"".data s.data
  let (uuid, r) ← takeUntilQuote r
  let r ← expectChars "\n\n[VirtualCenter \"".data r
  let (server, r) ← takeUntilQuote r
  let r ← expectChars "]\ninsecure-flag = \"true\"\nuser = \"".data r
  let (user, r) ← takeUntilQuote r
  let r ← expectChars "\npassword = \"".data r
  let (passwd, r) ← takeUntilQuote r
  let r ← expectChars "\nport = \"443\"\ndatacenters = \"".data r
  let (dc, r) ← takeUntilQuote r
  if r = ['\n'] then
    some (⟨uuid⟩, ⟨server⟩, ⟨user⟩, ⟨passwd⟩, ⟨dc⟩)
  else none

theorem expectChars_append (es rest : List Char) :
    expectChars es (es ++ rest) = some rest := by
  induction es with
  | nil => rfl
  | cons e es ih => simp [expectChars, ih]

theorem takeUntilQuote_append (v rest : List Char) (hv : ¬ '"' ∈ v) :
    takeUntilQuote (v ++ '"' :: rest) = some (v, rest) := by
  induction v with
  | nil => simp [takeUntilQuote]
  | cons c cs ih =>
    simp only [List.mem_cons, not_or] at hv
    have hc : ¬ (c = '"') := fun h => hv.1 h.symm
    simp [takeUntilQuote, hc, ih hv.2]

theorem secretConf_data (uuid user passwd server dc : String) :
    (secretConf uuid user passwd server dc).data =
      "[Global]\ncluster-id = \"".data ++ (uuid.data ++ '"' ::
      ("\n\n[VirtualCenter \"".data ++ (server.data ++ '"' ::
      ("]\ninsecure-flag = \"true\"\nuser = \"".data ++ (user.data ++ '"' ::
      ("\npassword = \"".data ++ (passwd.data ++ '"' ::
      ("\nport = \"443\"\ndatacenters = \"".data ++ (dc.data ++ '"' ::
      "\n".data))))))))) := by
  simp only [secretConf, String.data_append, List.append_assoc]
  rfl

theorem parseBlob_secretConf (uuid user passwd server dc : String)
    (hq1 : ¬ '"' ∈ uuid.data) (hq2 : ¬ '"' ∈ server.data)
    (hq3 : ¬ '"' ∈ user.data) (hq4 : ¬ '"' ∈ passwd.data)
    (hq5 : ¬ '"' ∈ dc.data) :
    parseBlob (secretConf uuid user passwd server dc) =
      some (uuid, server, user, passwd, dc) := by
  simp only [parseBlob, secretConf_data, expectChars_append,
    takeUntilQuote_append _ _ hq1, takeUntilQuote_append _ _ hq2,
    takeUntilQuote_append _ _ hq3, takeUntilQuote_append _ _ hq4,
    takeUntilQuote_append _ _ hq5, Option.bind_eq_bind, Option.some_bind]
  rfl

/-- C3: for every config in which `server`, `username`, `password` and
`datacenter` are present as (quote-free) strings, `CreateSecret` emits the
fixed Opaque Secret whose single data entry base64-decodes to the UTF-8
bytes of the configuration blob, and parsing that blob recovers exactly
those four values plus a `cluster-id` equal to the deployment's fixed
model identifier. -/
theorem createSecret_roundtrip (config : Dict) (uuid user passwd server dc : String)
    (hu : dget config "username" = some (JVal.str user))
    (hp : dget config "password" = some (JVal.str passwd))
    (hs : dget config "server" = some (JVal.str server))
    (hd : dget config "datacenter" = some (JVal.str dc))
    (hq1 : ¬ '"' ∈ uuid.data) (hq2 : ¬ '"' ∈ server.data)
    (hq3 : ¬ '"' ∈ user.data) (hq4 : ¬ '"' ∈ passwd.data)
    (hq5 : ¬ '"' ∈ dc.data) :
    CreateSecret.call config uuid =
      some [("apiVersion", JVal.str "v1"),
            ("kind", JVal.str "Secret"),
            ("type", JVal.str "Opaque"),
            ("metadata", JVal.obj [("name", JVal.str "vsphere-config-secret")]),
            ("data", JVal.obj [("csi-vsphere.conf",
              JVal.str (b64encodeString (secretConf uuid user passwd server dc)))])] ∧
    b64decodeBytes (b64encodeString (secretConf uuid user passwd server dc)).data =
      some (utf8Encode (secretConf uuid user passwd server dc)) ∧
    parseBlob (secretConf uuid user passwd server dc) =
      some (uuid, server, user, passwd, dc) := by
  refine ⟨?_, ?_, parseBlob_secretConf uuid user passwd server dc hq1 hq2 hq3 hq4 hq5⟩
  · simp [CreateSecret.call, hu, hp, hs, hd, isNull, pyStr, SECRET_NAME, SECRET_DATA]
  · exact b64decode_encode _ (utf8Bytes_lt_256 _)

/-- Witness for C3 at concrete credentials and model uuid. -/
theorem createSecret_roundtrip_witness :
    CreateSecret.call
      [("server", JVal.str "vc.example"), ("username", JVal.str "u1"),
       ("password", JVal.str "p1"), ("datacenter", JVal.str "dc1")]
      "model-uuid-1234" =
      some [("apiVersion", JVal.str "v1"),
            ("kind", JVal.str "Secret"),
            ("type", JVal.str "Opaque"),
            ("metadata", JVal.obj [("name", JVal.str "vsphere-config-secret")]),
            ("data", JVal.obj [("csi-vsphere.conf",
              JVal.str (b64encodeString
                (secretConf "model-uuid-1234" "u1" "p1" "vc.example" "dc1")))])] ∧
    b64decodeBytes (b64encodeString
        (secretConf "model-uuid-1234" "u1" "p1" "vc.example" "dc1")).data =
      some (utf8Encode (secretConf "model-uuid-1234" "u1" "p1" "vc.example" "dc1")) ∧
    parseBlob (secretConf "model-uuid-1234" "u1" "p1" "vc.example" "dc1") =
      some ("model-uuid-1234", "vc.example", "u1", "p1", "dc1") :=
  createSecret_roundtrip
    [("server", JVal.str "vc.example"), ("username", JVal.str "u1"),
     ("password", JVal.str "p1"), ("datacenter", JVal.str "dc1")]
    "model-uuid-1234" "u1" "p1" "vc.example" "dc1"
    rfl rfl rfl rfl (by decide) (by decide) (by decide) (by decide) (by decide)

/-- C4: if any one of `server`, `username`, `password`, `datacenter` is
absent from the config, `CreateSecret` returns no object. -/
theorem createSecret_none_of_missing (config : Dict) (uuid : String)
    (h : dget config "server" = none ∨ dget config "username" = none ∨
         dget config "password" = none ∨ dget config "datacenter" = none) :
    CreateSecret.call config uuid = none := by
  rcases h with h | h | h | h
  · cases hu : dget config "username" <;> cases hp : dget config "password" <;>
      simp [CreateSecret.call, hu, hp, h]
  · simp [CreateSecret.call, h]
  · cases hu : dget config "username" <;> simp [CreateSecret.call, hu, h]
  · cases hu : dget config "username" <;> cases hp : dget config "password" <;>
      cases hs : dget config "server" <;> simp [CreateSecret.call, hu, hp, hs, h]

/-- Witness for C4: the empty config (all four keys absent) yields no
secret object. -/
theorem createSecret_none_of_missing_witness :
    CreateSecret.call [] "model-uuid-1234" = none :=
  createSecret_none_of_missing [] "model-uuid-1234" (Or.inl rfl)

/-! ### MD5 (RFC 1321), used by `VsphereStorageManifests.hash` -/

/-- Addition truncated to 32 bits. -/
def add32 (a b : Nat) : Nat := (a + b) % 4294967296

/-- 32-bit left rotation (callers keep `x < 2^32` and `s < 32`). -/
def rotl32 (x s : Nat) : Nat := x % 2 ^ (32 - s) * 2 ^ s + x / 2 ^ (32 - s)

/-- 32-bit complement (callers keep `x < 2^32`). -/
def not32 (x : Nat) : Nat := 4294967295 - x % 4294967296

/-- The MD5 nonlinear function of round `i`. -/
def md5F (i b c d : Nat) : Nat :=
  if i < 16 then b &&& c ||| not32 b &&& d
  else if i < 32 then d &&& b ||| not32 d &&& c
  else if i < 48 then b ^^^ c ^^^ d
  else c ^^^ (b ||| not32 d)

/-- The message-word index used in round `i`. -/
def md5g (i : Nat) : Nat :=
  if i < 16 then i
  else if i < 32 then (5 * i + 1) % 16
  else if i < 48 then (3 * i + 5) % 16
  else 7 * i % 16

/-- The 64 MD5 sine-derived constants. -/
def md5K : List Nat :=
  [   3614090360, 3905402710, 606105819, 3250441966, 4118548399, 1200080426, 2821735955, 4249261313,
   1770035416, 2336552879, 4294925233, 2304563134, 1804603682, 4254626195, 2792965006, 1236535329,
   4129170786, 3225465664, 643717713, 3921069994, 3593408605, 38016083, 3634488961, 3889429448,
   568446438, 3275163606, 4107603335, 1163531501, 2850285829, 4243563512, 1735328473, 2368359562,
   4294588738, 2272392833, 1839030562, 4259657740, 2763975236, 1272893353, 4139469664, 3200236656,
   681279174, 3936430074, 3572445317, 76029189, 3654602809, 3873151461, 530742520, 3299628645,
   4096336452, 1126891415, 2878612391, 4237533241, 1700485571, 2399980690, 4293915773, 2240044497,
   1873313359, 4264355552, 2734768916, 1309151649, 4149444226, 3174756917, 718787259, 3951481745]

/-- The 64 MD5 per-round rotation amounts. -/
def md5S : List Nat :=
  [   7, 12, 17, 22, 7, 12, 17, 22, 7, 12, 17, 22, 7, 12, 17, 22,
   5, 9, 14, 20, 5, 9, 14, 20, 5, 9, 14, 20, 5, 9, 14, 20,
   4, 11, 16, 23, 4, 11, 16, 23, 4, 11, 16, 23, 4, 11, 16, 23,
   6, 10, 15, 21, 6, 10, 15, 21, 6, 10, 15, 21, 6, 10, 15, 21]

/-- A 32-bit word as four little-endian bytes. -/
def le32 (n : Nat) : List Nat :=
  [n % 256, n / 256 % 256, n / 65536 % 256, n / 16777216 % 256]

/-- A 64-bit quantity as eight little-endian bytes. -/
def le64 (n : Nat) : List Nat :=
  (List.range 8).map (fun i => n / 256 ^ i % 256)

/-- MD5 padding: a `0x80` byte, zeros to 56 mod 64, then the bit length
as eight little-endian bytes. -/
def md5Pad (msg : List Nat) : List Nat :=
  msg ++ 128 :: List.replicate ((119 - msg.length % 64) % 64) 0 ++
    le64 (msg.length * 8)

/-- The `i`-th little-endian 32-bit word of a 64-byte chunk. -/
def md5Word (chunk : List Nat) (i : Nat) : Nat :=
  chunk.getD (4 * i) 0 + chunk.getD (4 * i + 1) 0 * 256 +
    chunk.getD (4 * i + 2) 0 * 65536 + chunk.getD (4 * i + 3) 0 * 16777216

/-- One MD5 round on the state `(a, b, c, d)`. -/
def md5Round (chunk : List Nat) (i : Nat) : Nat × Nat × Nat × Nat → Nat × Nat × Nat × Nat
  | (a, b, c, d) =>
    let f := add32 (add32 (add32 a (md5F i b c d)) (md5K.getD i 0))
      (md5Word chunk (md5g i))
    (d, add32 b (rotl32 f (md5S.getD i 0)), b, c)

/-- Process one 64-byte chunk: 64 rounds, then add into the running state. -/
def md5Chunk (chunk : List Nat) (st : Nat × Nat × Nat × Nat) : Nat × Nat × Nat × Nat :=
  let r := (List.range 64).foldl (fun s i => md5Round chunk i s) st
  (add32 st.1 r.1, add32 st.2.1 r.2.1, add32 st.2.2.1 r.2.2.1, add32 st.2.2.2 r.2.2.2)

/-- Process a padded message 64 bytes at a time. -/
def md5Chunks (bytes : List Nat) (st : Nat × Nat × Nat × Nat) : Nat × Nat × Nat × Nat :=
  if h : bytes = [] then st
  else md5Chunks (bytes.drop 64) (md5Chunk (bytes.take 64) st)
termination_by bytes.length
decreasing_by
  have : bytes.length ≠ 0 := fun hz => h (List.length_eq_zero.mp hz)
  simp [List.length_drop]
  omega

/-- The 16 MD5 digest bytes of a message. -/
def md5Bytes (msg : List Nat) : List Nat :=
  let r := md5Chunks (md5Pad msg) (1732584193, 4023233417, 2562383102, 271733878)
  le32 r.1 ++ le32 r.2.1 ++ le32 r.2.2.1 ++ le32 r.2.2.2

/-- `int(md5(msg).hexdigest(), 16)`: the digest bytes read big-endian. -/
def md5Nat (msg : List Nat) : Nat :=
  (md5Bytes msg).foldl (fun acc byte => acc * 256 + byte) 0

/-! ### `VsphereStorageManifests.hash` (source lines 173-175) -/

/-- The `sort_keys=True` ordering of `json.dumps`: canonicalize a value by
recursively sorting every dict's entries by key (Python compares `str`
keys by code point, as the `String` linear order does). -/
def canon : JVal → JVal
  | .str s => .str s
  | .int n => .int n
  | .null => .null
  | .obj xs => .obj (List.mergeSort
      (xs.attach.map (fun q => (q.1.1, canon q.1.2)))
      (fun p q => decide (p.1 ≤ q.1)))
  | .arr xs => .arr (xs.attach.map (fun q => canon q.1))
termination_by v => sizeOf v
decreasing_by
  · obtain ⟨⟨k, v⟩, hq⟩ := q
    have := List.sizeOf_lt_of_mem hq
    simp at *
    omega
  · obtain ⟨x, hq⟩ := q
    have := List.sizeOf_lt_of_mem hq
    simp at *
    omega

/-- A hex digit as `json.dumps` prints `\uXXXX` escapes. -/
def hexDigit (n : Nat) : Char :=
  "0123456789abcdef".data.getD n '0'

/-- A `\uXXXX` escape for a 16-bit quantity. -/
def u4 (n : Nat) : List Char :=
  ['\\', 'u', hexDigit (n / 4096 % 16), hexDigit (n / 256 % 16),
   hexDigit (n / 16 % 16), hexDigit (n % 16)]

/-- One character of a JSON string, escaped as `json.dumps` does with the
default `ensure_ascii=True` (everything outside `0x20`-`0x7e` escaped,
code points above `0xFFFF` as surrogate pairs). -/
def escapeChar (c : Char) : List Char :=
  if c = '"' then ['\\', '"']
  else if c = '\\' then ['\\', '\\']
  else if c = '\n' then ['\\', 'n']
  else if c = '\t' then ['\\', 't']
  else if c = '\r' then ['\\', 'r']
  else if c.toNat = 8 then ['\\', 'b']
  else if c.toNat = 12 then ['\\', 'f']
  else if c.toNat < 32 then u4 c.toNat
  else if c.toNat < 127 then [c]
  else if c.toNat < 65536 then u4 c.toNat
  else u4 (55296 + (c.toNat - 65536) / 1024) ++ u4 (56320 + (c.toNat - 65536) % 1024)

/-- A JSON string literal with quotes and escaping. -/
def jsonStr (s : String) : List Char :=
  '"' :: s.data.foldr (fun c acc => escapeChar c ++ acc) ['"']

/-- Comma-space separated concatenation, as the default `json.dumps`
separators produce. -/
def joinComma : List (List Char) → List Char
  | [] => []
  | [x] => x
  | x :: xs => x ++ ", ".data ++ joinComma xs

/-- `json.dumps` with default separators, serializing dict entries in list
order (the `sort_keys=True` ordering is applied by `canon` beforehand). -/
def jsonDumps : JVal → List Char
  | .str s => jsonStr s
  | .int n => (toString n).data
  | .null => "null".data
  | .obj xs => '\x7b' :: joinComma
      (xs.attach.map (fun q => jsonStr q.1.1 ++ ':' :: ' ' :: jsonDumps q.1.2)) ++ ['\x7d']
  | .arr xs => '[' :: joinComma (xs.attach.map (fun q => jsonDumps q.1)) ++ [']']
termination_by v => sizeOf v
decreasing_by
  · obtain ⟨⟨k, v⟩, hq⟩ := q
    have := List.sizeOf_lt_of_mem hq
    simp at *
    omega
  · obtain ⟨x, hq⟩ := q
    have := List.sizeOf_lt_of_mem hq
    simp at *
    omega

/-- `VsphereStorageManifests.hash` (source lines 173-175):
`int(md5(json.dumps(self.config, sort_keys=True).encode("utf8")).hexdigest(), 16)`.
`canon` applies the `sort_keys=True` ordering, `jsonDumps` serializes, the
UTF-8 bytes are digested with MD5, and the hex digest read as an integer
is the digest bytes big-endian. -/
def VsphereStorageManifests.hash (c : Dict) : Nat :=
  md5Nat (utf8Bytes (jsonDumps (canon (JVal.obj c))))

/-- Two Python values have the same content when they agree everywhere up
to the insertion order of dict entries (recursively, also inside nested
dicts and lists): the `obj` constructor relates the entries of `xs`
pointwise (same key, same-content value) to an intermediate list `zs` and
lets `ys` be any permutation of it. -/
inductive SameContent : JVal → JVal → Prop where
  | str (s : String) : SameContent (.str s) (.str s)
  | int (n : Int) : SameContent (.int n) (.int n)
  | null : SameContent .null .null
  | arr {xs ys : List JVal} (hlen : xs.length = ys.length)
      (h : ∀ pq ∈ xs.zip ys, SameContent pq.1 pq.2) :
      SameContent (.arr xs) (.arr ys)
  | obj {xs zs ys : List (String × JVal)} (hlen : xs.length = zs.length)
      (hkeys : ∀ pq ∈ xs.zip zs, pq.1.1 = pq.2.1)
      (h : ∀ pq ∈ xs.zip zs, SameContent pq.1.2 pq.2.2)
      (hperm : zs.Perm ys) :
      SameContent (.obj xs) (.obj ys)

/-- Every dict inside a value has pairwise-distinct keys, as Python dicts
always do. -/
inductive NodupKeys : JVal → Prop where
  | str (s : String) : NodupKeys (.str s)
  | int (n : Int) : NodupKeys (.int n)
  | null : NodupKeys .null
  | arr {xs : List JVal} (h : ∀ x ∈ xs, NodupKeys x) : NodupKeys (.arr xs)
  | obj {xs : List (String × JVal)} (hk : (xs.map Prod.fst).Nodup)
      (h : ∀ p ∈ xs, NodupKeys p.2) : NodupKeys (.obj xs)

theorem canon_arr (xs : List JVal) : canon (.arr xs) = .arr (xs.map canon) := by
  rw [canon]
  congr 1
  exact List.attach_map_val xs canon

theorem canon_obj (xs : List (String × JVal)) :
    canon (.obj xs) = .obj (List.mergeSort (xs.map (fun p => (p.1, canon p.2)))
      (fun p q => decide (p.1 ≤ q.1))) := by
  rw [canon]
  congr 2
  exact List.attach_map_val xs (fun p => (p.1, canon p.2))

theorem map_eq_of_zip {α β : Type} (f : α → β) :
    ∀ (xs ys : List α), xs.length = ys.length →
      (∀ pq ∈ xs.zip ys, f pq.1 = f pq.2) → xs.map f = ys.map f := by
  intro xs
  induction xs with
  | nil =>
    intro ys hlen _
    cases ys with
    | nil => rfl
    | cons y ys => simp at hlen
  | cons x xs ih =>
    intro ys hlen h
    cases ys with
    | nil => simp at hlen
    | cons y ys =>
      simp only [List.zip_cons_cons, List.mem_cons] at h
      simp only [List.map_cons]
      rw [h (x, y) (Or.inl rfl), ih ys (by simpa using hlen)
        (fun pq hpq => h pq (Or.inr hpq))]

theorem mem_zip_self {α : Type} : ∀ (xs : List α), ∀ pq ∈ xs.zip xs, pq.1 = pq.2 := by
  intro xs
  induction xs with
  | nil => intro pq hpq; simp at hpq
  | cons x xs ih =>
    intro pq hpq
    simp only [List.zip_cons_cons, List.mem_cons] at hpq
    rcases hpq with h | h
    · rw [h]
    · exact ih pq h

theorem sameContent_refl_aux : ∀ n v, sizeOf v ≤ n → SameContent v v := by
  intro n
  induction n with
  | zero =>
    intro v hsz
    cases v <;> simp at hsz
  | succ n ih =>
    intro v hsz
    cases v with
    | str s => exact SameContent.str s
    | int i => exact SameContent.int i
    | null => exact SameContent.null
    | arr xs =>
      refine SameContent.arr rfl ?_
      intro pq hpq
      rw [mem_zip_self xs pq hpq]
      have hmem := (List.of_mem_zip hpq).2
      have hlt := List.sizeOf_lt_of_mem hmem
      have hsz' : sizeOf (JVal.arr xs) = 1 + sizeOf xs := by simp
      exact ih pq.2 (by omega)
    | obj xs =>
      refine SameContent.obj rfl ?_ ?_ (List.Perm.refl xs)
      · intro pq hpq
        rw [mem_zip_self xs pq hpq]
      intro pq hpq
      rw [mem_zip_self xs pq hpq]
      have hmem := (List.of_mem_zip hpq).2
      have hlt := List.sizeOf_lt_of_mem hmem
      have hpair : sizeOf pq.2 = 1 + sizeOf pq.2.1 + sizeOf pq.2.2 := by
        obtain ⟨a, b⟩ := pq.2
        simp
      have hsz' : sizeOf (JVal.obj xs) = 1 + sizeOf xs := by simp
      exact ih pq.2.2 (by omega)

/-- Content equality is reflexive. -/
theorem sameContent_refl (v : JVal) : SameContent v v :=
  sameContent_refl_aux (sizeOf v) v (Nat.le_refl _)

theorem keyle_trans (a b c : String × JVal) (h1 : decide (a.1 ≤ b.1) = true)
    (h2 : decide (b.1 ≤ c.1) = true) : decide (a.1 ≤ c.1) = true := by
  simp only [decide_eq_true_eq] at *
  exact le_trans h1 h2

theorem keyle_total (a b : String × JVal) :
    (decide (a.1 ≤ b.1) || decide (b.1 ≤ a.1)) = true := by
  simp only [Bool.or_eq_true, decide_eq_true_eq]
  exact le_total a.1 b.1

theorem keys_map_canonEntry (l : List (String × JVal)) :
    (l.map (fun p => (p.1, canon p.2))).map Prod.fst = l.map Prod.fst := by
  simp [List.map_map, Function.comp]

theorem pairwise_lt_of_le_nodup (l : List (String × JVal))
    (hle : l.Pairwise (fun p q => decide (p.1 ≤ q.1) = true))
    (hnd : (l.map Prod.fst).Nodup) :
    l.Pairwise (fun p q => p.1 < q.1) := by
  have hne : l.Pairwise (fun p q => p.1 ≠ q.1) := List.pairwise_map.mp hnd
  exact (hle.and hne).imp
    (fun hab => lt_of_le_of_ne (of_decide_eq_true hab.1) hab.2)

theorem key_sorted_unique (l1 l2 : List (String × JVal))
    (hperm : l1.Perm l2)
    (h1 : l1.Pairwise (fun p q => p.1 < q.1))
    (h2 : l2.Pairwise (fun p q => p.1 < q.1)) : l1 = l2 := by
  haveI : IsAntisymm (String × JVal) (fun p q => p.1 < q.1) :=
    ⟨fun a b hab hba => absurd (lt_trans hab hba) (lt_irrefl _)⟩
  exact List.eq_of_perm_of_sorted hperm h1 h2

theorem canon_eq_of_sameContent_aux :
    ∀ n a b, sizeOf a ≤ n → SameContent a b → NodupKeys a → NodupKeys b →
      canon a = canon b := by
  intro n
  induction n with
  | zero =>
    intro a b hsz _ _ _
    cases a <;> simp at hsz
  | succ n ih =>
    intro a b hsz hsc hna hnb
    cases hsc with
    | str s => rfl
    | int i => rfl
    | null => rfl
    | arr hlen h =>
      rename_i xs ys
      rw [canon_arr, canon_arr]
      congr 1
      apply map_eq_of_zip canon xs ys hlen
      intro pq hpq
      obtain ⟨hm1, hm2⟩ := List.of_mem_zip hpq
      have hlt := List.sizeOf_lt_of_mem hm1
      have hsz' : sizeOf (JVal.arr xs) = 1 + sizeOf xs := by simp
      cases hna with | arr hall1 =>
      cases hnb with | arr hall2 =>
      exact ih pq.1 pq.2 (by omega) (h pq hpq) (hall1 _ hm1) (hall2 _ hm2)
    | obj hlen hkeys h hperm =>
      rename_i xs zs ys
      cases hna with | obj hk1 hv1 =>
      cases hnb with | obj hk2 hv2 =>
      rw [canon_obj, canon_obj]
      have hmapeq : xs.map (fun p => (p.1, canon p.2)) =
          zs.map (fun p => (p.1, canon p.2)) := by
        apply map_eq_of_zip _ xs zs hlen
        intro pq hpq
        obtain ⟨hm1, hm2⟩ := List.of_mem_zip hpq
        have hlt := List.sizeOf_lt_of_mem hm1
        have hpair : sizeOf pq.1 = 1 + sizeOf pq.1.1 + sizeOf pq.1.2 := by
          obtain ⟨u, v⟩ := pq.1
          simp
        have hsz' : sizeOf (JVal.obj xs) = 1 + sizeOf xs := by simp
        have hval : canon pq.1.2 = canon pq.2.2 :=
          ih pq.1.2 pq.2.2 (by omega) (h pq hpq) (hv1 _ hm1)
            (hv2 _ (hperm.mem_iff.mp hm2))
        have hkey := hkeys pq hpq
        show (pq.1.1, canon pq.1.2) = (pq.2.1, canon pq.2.2)
        rw [hkey, hval]
      rw [hmapeq]
      congr 1
      -- both sides sort permutations of the same multiset of canonical
      -- entries with pairwise-distinct keys, hence are equal
      have hzkeys : (zs.map Prod.fst).Nodup :=
        ((hperm.map Prod.fst).nodup_iff).mpr hk2
      have hs1 := List.sorted_mergeSort keyle_trans keyle_total
        (zs.map (fun p => (p.1, canon p.2)))
      have hs2 := List.sorted_mergeSort keyle_trans keyle_total
        (ys.map (fun p => (p.1, canon p.2)))
      have hp12 : (List.mergeSort (zs.map (fun p => (p.1, canon p.2)))
            (fun p q => decide (p.1 ≤ q.1))).Perm
          (List.mergeSort (ys.map (fun p => (p.1, canon p.2)))
            (fun p q => decide (p.1 ≤ q.1))) :=
        (List.mergeSort_perm _ _).trans
          ((hperm.map _).trans (List.mergeSort_perm _ _).symm)
      apply key_sorted_unique _ _ hp12
      · apply pairwise_lt_of_le_nodup _ hs1
        have : ((List.mergeSort (zs.map (fun p => (p.1, canon p.2)))
            (fun p q => decide (p.1 ≤ q.1))).map Prod.fst).Perm
            ((zs.map (fun p => (p.1, canon p.2))).map Prod.fst) :=
          (List.mergeSort_perm _ _).map _
        rw [this.nodup_iff, keys_map_canonEntry]
        exact hzkeys
      · apply pairwise_lt_of_le_nodup _ hs2
        have : ((List.mergeSort (ys.map (fun p => (p.1, canon p.2)))
            (fun p q => decide (p.1 ≤ q.1))).map Prod.fst).Perm
            ((ys.map (fun p => (p.1, canon p.2))).map Prod.fst) :=
          (List.mergeSort_perm _ _).map _
        rw [this.nodup_iff, keys_map_canonEntry]
        exact hk2

/-- Canonicalization identifies values with the same content. -/
theorem canon_eq_of_sameContent (a b : JVal) (h : SameContent a b)
    (hna : NodupKeys a) (hnb : NodupKeys b) : canon a = canon b :=
  canon_eq_of_sameContent_aux (sizeOf a) a b (Nat.le_refl _) h hna hnb

/-- C2: the fingerprint is a pure function of the effective config's
content: two configs containing the same key-value pairs, with keys
inserted in different orders (including inside nested mappings), hash to
the same integer. -/
theorem hash_order_independent (c c' : Dict)
    (h : SameContent (JVal.obj c) (JVal.obj c'))
    (hn : NodupKeys (JVal.obj c)) (hn' : NodupKeys (JVal.obj c')) :
    VsphereStorageManifests.hash c = VsphereStorageManifests.hash c' := by
  unfold VsphereStorageManifests.hash
  rw [canon_eq_of_sameContent _ _ h hn hn']

/-- Witness for C2: reordering the top-level keys and the keys of a nested
mapping leaves the hash unchanged. -/
theorem hash_order_independent_witness :
    VsphereStorageManifests.hash
      [("b", JVal.int 1), ("a", JVal.obj [("y", JVal.str "2"), ("x", JVal.str "3")])] =
    VsphereStorageManifests.hash
      [("a", JVal.obj [("x", JVal.str "3"), ("y", JVal.str "2")]), ("b", JVal.int 1)] := by
  apply hash_order_independent
  · exact @SameContent.obj
      [("b", JVal.int 1), ("a", JVal.obj [("y", JVal.str "2"), ("x", JVal.str "3")])]
      [("b", JVal.int 1), ("a", JVal.obj [("x", JVal.str "3"), ("y", JVal.str "2")])]
      [("a", JVal.obj [("x", JVal.str "3"), ("y", JVal.str "2")]), ("b", JVal.int 1)]
      rfl
      (by intro pq hpq; simp at hpq; rcases hpq with h | h <;> subst h <;> rfl)
      (by
        intro pq hpq
        simp at hpq
        rcases hpq with h | h <;> subst h
        · exact SameContent.int 1
        · exact @SameContent.obj
            [("y", JVal.str "2"), ("x", JVal.str "3")]
            [("y", JVal.str "2"), ("x", JVal.str "3")]
            [("x", JVal.str "3"), ("y", JVal.str "2")]
            rfl
            (fun pq hpq => by rw [mem_zip_self _ pq hpq])
            (fun pq hpq => by rw [mem_zip_self _ pq hpq]; exact sameContent_refl _)
            (List.Perm.swap _ _ _))
      (List.Perm.swap _ _ _)
  · refine NodupKeys.obj (by decide) ?_
    intro p hp
    simp at hp
    rcases hp with h | h <;> subst h
    · exact NodupKeys.int 1
    · refine NodupKeys.obj (by decide) ?_
      intro q hq
      simp at hq
      rcases hq with h | h <;> subst h <;> exact NodupKeys.str _
  · refine NodupKeys.obj (by decide) ?_
    intro p hp
    simp at hp
    rcases hp with h | h <;> subst h
    · refine NodupKeys.obj (by decide) ?_
      intro q hq
      simp at hq
      rcases hq with h | h <;> subst h <;> exact NodupKeys.str _
    · exact NodupKeys.int 1
